import Mathlib

/-!
Shallow embedding of the univ3-positions-manager price/tick converter,
amount calculator and workflow scripts, together with theorems settling
the specification claims about them.

Sources embedded (authoritative versions, i.e. the ones the claims cite):
- `src/scripts/utils/constants.ts` (tokens, fee tiers, slippage default)
- `src/scripts/utils/price.ts` (first version: `priceToTick`,
  `tickToTokenPrice`, `validatePriceRange`, `getTickSpacing`)
- `@uniswap/v3-sdk` `TickMath` and `SqrtPriceMath` (the library routines those
  functions call; ported verbatim, all-integer arithmetic)
- `src/scripts/utils/position.ts` (`calculateOptimalAmounts`,
  `calculateMinimumAmounts`)
- `src/scripts/utils/validation.ts` (`validateAdjustRangeParams`)
- `src/scripts/withdrawLiquidity.ts` and `src/scripts/adjustRange.ts`
  (second version), modelled as traces of external contract calls.

Numeric idealization: JavaScript `number` values are embedded as exact
rationals (`ℚ`) and `BigInt` as `ℤ`.  The only floating-point operations on
the embedded paths are `Math.sqrt`/`Decimal.toNumber` inside `priceToTick`
(idealized to the exact integer square root; the f64 result differs from the
exact one by at most 1 ulp, i.e. at most one raw tick near a boundary) and
`Math.floor((1 - s) * 10000)` inside `calculateMinimumAmounts` (idealized to
the exact rational floor).
-/

namespace Univ3

/-- Decidable equality for `Except` results, so that concrete runs of the
embedded functions can be checked by `decide`. -/
instance {e a : Type} [DecidableEq e] [DecidableEq a] : DecidableEq (Except e a) := fun x y =>
  match x, y with
  | .error u, .error v =>
    match decEq u v with
    | isTrue h => isTrue (h ▸ rfl)
    | isFalse h => isFalse fun hc => h (Except.error.inj hc)
  | .error _, .ok _ => isFalse fun hc => Except.noConfusion hc
  | .ok _, .error _ => isFalse fun hc => Except.noConfusion hc
  | .ok u, .ok v =>
    match decEq u v with
    | isTrue h => isTrue (h ▸ rfl)
    | isFalse h => isFalse fun hc => h (Except.ok.inj hc)

/-- JavaScript `BigInt` division: truncates toward zero. -/
def jsDiv (a b : ℤ) : ℤ := Int.tdiv a b

/-- JavaScript `Math.floor` on an exact rational: `Int.ediv` of the numerator
by the (positive) denominator is the floor. -/
def jsFloorQ (q : ℚ) : ℤ := Int.ediv q.num q.den

/-- JavaScript `Math.round (t / s) * s` for integer `t` and positive integer
`s`, in exact integer arithmetic: `Math.round x = ⌊x + 1/2⌋` (halves round
up), and `⌊t/s + 1/2⌋ = ⌊(2*t+s) / (2*s)⌋`. -/
def jsRoundDiv (t : ℤ) (s : ℕ) : ℤ := Int.fdiv (2 * t + s) (2 * s)

/-- Error taxonomy of the spec (§7), mapped onto the `Error` values thrown by
the scripts:
- `InvalidInput`: `Price must be greater than 0`, `Liquidity amount must be
  greater than 0`, `Prices must be greater than 0`, a failed
  `ethers.parseEther` parse, `Price range must be specified`,
  `Slippage tolerance must be between 0 and 100`.
- `InvalidRange`: `Lower tick must be less than upper tick`,
  `Lower price must be less than upper price`.
- `InvalidTickAlignment`: the v3-sdk `Position` constructor invariants
  `TICK_LOWER` / `TICK_UPPER` (also triggered by out-of-bounds ticks).
- `OutOfRange`: `Calculated tick ... is out of bounds`.
- `InvalidPosition`: `Invalid position: both token amounts are 0`.
- `InvalidFeeTier`: `Invalid fee tier`.
- `SqrtRatioOutOfBounds`: the v3-sdk `TickMath.getTickAtSqrtRatio` invariant
  `SQRT_RATIO`.
- `TickOutOfBounds`: the v3-sdk `TickMath.getSqrtRatioAtTick` invariant
  `TICK`. -/
inductive Err
  | InvalidInput
  | InvalidRange
  | InvalidTickAlignment
  | OutOfRange
  | InvalidPosition
  | InvalidFeeTier
  | SqrtRatioOutOfBounds
  | TickOutOfBounds
deriving DecidableEq, Repr

/-- Token descriptor, from `@uniswap/sdk-core` `Token` as used in
`constants.ts`. -/
structure Token where
  chainId : ℕ
  address : String
  decimals : ℕ
  symbol : String
deriving DecidableEq, Repr

/-- constants.ts: `WETH` (Sepolia). -/
def WETH : Token := ⟨11155111, r"0x7b79995e5f793A07Bc00c21412e50Ecae098E7f9", 18, r"WETH"⟩

/-- constants.ts: `USDC` (Sepolia, 6 decimals). -/
def USDC : Token := ⟨11155111, r"0x1c7D4B196Cb0C7B01d743Fbc6116a902379C7238", 6, r"USDC"⟩

/-- constants.ts: `FEE_TIERS.LOW`. -/
def FEE_TIERS_LOW : ℕ := 500

/-- constants.ts: `FEE_TIERS.MEDIUM`. -/
def FEE_TIERS_MEDIUM : ℕ := 3000

/-- constants.ts: `FEE_TIERS.HIGH`. -/
def FEE_TIERS_HIGH : ℕ := 10000

/-- constants.ts: `TICK_SPACINGS` map (`500 → 10`, `3000 → 60`,
`10000 → 200`); `undefined` for any other fee tier. -/
def TICK_SPACINGS (feeTier : ℕ) : Option ℕ :=
  if feeTier = 500 then some 10
  else if feeTier = 3000 then some 60
  else if feeTier = 10000 then some 200
  else none

/-- constants.ts: `SLIPPAGE_TOLERANCE = 0.005`. -/
def SLIPPAGE_TOLERANCE : ℚ := mkRat 1 200

/-- constants.ts: `MaxUint128 = 2n ** 128n - 1n`. -/
def MaxUint128 : ℕ := 2 ^ 128 - 1

/-- price.ts: `MIN_TICK = -887272`. -/
def MIN_TICK : ℤ := -887272

/-- price.ts: `MAX_TICK = 887272`. -/
def MAX_TICK : ℤ := 887272

/-- v3-sdk TickMath: `MaxUint256`. -/
def MaxUint256 : ℕ := 2 ^ 256 - 1

/-- v3-sdk TickMath: `MIN_SQRT_RATIO`. -/
def minSqrtRatio : ℕ := 4295128739

/-- v3-sdk TickMath: `MAX_SQRT_RATIO`. -/
def maxSqrtRatio : ℕ := 1461446703485210103287273052203988822378723970342

/-- v3-sdk TickMath: `mulShift(val, mulBy) = (val * mulBy) >> 128` (operands
are non-negative, so the signed shift is a plain division). -/
def mulShift (val mulBy : ℕ) : ℕ := val * mulBy / 2 ^ 128

/-- v3-sdk TickMath `getSqrtRatioAtTick`: the magic multiplier applied for
each bit of the tick's absolute value (bits `0x2` through `0x80000`; bit
`0x1` selects the initial value instead). -/
def tickMagic : List (ℕ × ℕ) :=
  [(0x2, 0xfff97272373d413259a46990580e213a),
   (0x4, 0xfff2e50f5f656932ef12357cf3c7fdcc),
   (0x8, 0xffe5caca7e10e4e61c3624eaa0941cd0),
   (0x10, 0xffcb9843d60f6159c9db58835c926644),
   (0x20, 0xff973b41fa98c081472e6896dfb254c0),
   (0x40, 0xff2ea16466c96a3843ec78b326b52861),
   (0x80, 0xfe5dee046a99a2a811c461f1969c3053),
   (0x100, 0xfcbe86c7900a88aedcffc83b479aa3a4),
   (0x200, 0xf987a7253ac413176f2b074cf7815e54),
   (0x400, 0xf3392b0822b70005940c7a398e4b70f3),
   (0x800, 0xe7159475a2c29b7443b29c7fa6e889d9),
   (0x1000, 0xd097f3bdfd2022b8845ad8f792aa5825),
   (0x2000, 0xa9f746462d870fdf8a65dc1f90e061e5),
   (0x4000, 0x70d869a156d2a1b890bb3df62baf32f7),
   (0x8000, 0x31be135f97d08fd981231505542fcfa6),
   (0x10000, 0x9aa508b5b7a84e1c677de54f3e99bc9),
   (0x20000, 0x5d6af8dedb81196699c329225ee604),
   (0x40000, 0x2216e584f5fa1ea926041bedfe98),
   (0x80000, 0x48a170391f7dc42444e8fa2)]

/-- v3-sdk TickMath `getSqrtRatioAtTick`, without the `TICK` invariant (the
checked wrapper is `getSqrtRatioAtTick` below). -/
def getSqrtRatioAtTickRaw (tick : ℤ) : ℕ :=
  let absTick := tick.natAbs
  let r0 : ℕ :=
    if absTick &&& 0x1 ≠ 0 then 0xfffcb933bd6fad37aa2d162d1a594001
    else 0x100000000000000000000000000000000
  let ratio := tickMagic.foldl
    (fun r p => if absTick &&& p.1 ≠ 0 then mulShift r p.2 else r) r0
  let ratio := if tick > 0 then MaxUint256 / ratio else ratio
  ratio / 2 ^ 32 + (if ratio % 2 ^ 32 = 0 then 0 else 1)

/-- v3-sdk TickMath `getSqrtRatioAtTick` with its invariant
`MIN_TICK ≤ tick ≤ MAX_TICK` (message `TICK`). -/
def getSqrtRatioAtTick (tick : ℤ) : Except Err ℕ :=
  if tick < MIN_TICK ∨ tick > MAX_TICK then .error .TickOutOfBounds
  else .ok (getSqrtRatioAtTickRaw tick)

/-- mostSignificantBit helper: `msbFuel fuel n` is `⌊log2 n⌋` for `n ≥ 1`
once `fuel` bounds the bit length (structural recursion so that the kernel
can evaluate it). -/
def msbFuel : ℕ → ℕ → ℕ
  | 0, _ => 0
  | fuel + 1, n => if n < 2 then 0 else 1 + msbFuel fuel (n / 2)

/-- mostSignificantBit of a value below `2 ^ 256` (v3-sdk `mostSignificantBit`). -/
def msb256 (n : ℕ) : ℕ := msbFuel 256 n

/-- One iteration of the binary-logarithm loop in v3-sdk TickMath
`getTickAtSqrtRatio`.  The state is `(log_2, r)`.  `log_2 | (f << (63 - i))`
is written as an addition: the OR'ed bit is below bit 64 and the low 64 bits
of `log_2` at step `i` are only ever filled from bit 63 downwards, so the
bits are disjoint even in two's complement. -/
def logStep (st : ℤ × ℕ) (i : ℕ) : ℤ × ℕ :=
  let r : ℕ := st.2 * st.2 / 2 ^ 127
  let f : ℕ := r / 2 ^ 128
  (st.1 + (f : ℤ) * (2 : ℤ) ^ (63 - i), r / 2 ^ f)

/-- v3-sdk TickMath `getTickAtSqrtRatio`, without the `SQRT_RATIO` invariant
(the checked wrapper is `getTickAtSqrtRatio` below).  Signed right shifts by
128 are floor divisions (`Int.fdiv`). -/
def getTickAtSqrtRatioRaw (sqrtRatioX96 : ℕ) : ℤ :=
  let sqrtRatioX128 := sqrtRatioX96 * 2 ^ 32
  let msb := msb256 sqrtRatioX128
  let r : ℕ := if 128 ≤ msb then sqrtRatioX128 / 2 ^ (msb - 127)
               else sqrtRatioX128 * 2 ^ (127 - msb)
  let log2 : ℤ := ((msb : ℤ) - 128) * 2 ^ 64
  let st := (List.range 14).foldl logStep (log2, r)
  let logSqrt10001 := st.1 * 255738958999603826347141
  let tickLow := Int.fdiv (logSqrt10001 - 3402992956809132418596140100660247210) (2 ^ 128)
  let tickHigh := Int.fdiv (logSqrt10001 + 291339464771989622907027621153398088495) (2 ^ 128)
  if tickLow = tickHigh then tickLow
  else if getSqrtRatioAtTickRaw tickHigh ≤ sqrtRatioX96 then tickHigh else tickLow

/-- v3-sdk TickMath `getTickAtSqrtRatio` with its invariant
`MIN_SQRT_RATIO ≤ sqrtRatioX96 < MAX_SQRT_RATIO` (message `SQRT_RATIO`). -/
def getTickAtSqrtRatio (sqrtRatioX96 : ℕ) : Except Err ℤ :=
  if sqrtRatioX96 < minSqrtRatio ∨ maxSqrtRatio ≤ sqrtRatioX96 then
    .error .SqrtRatioOutOfBounds
  else .ok (getTickAtSqrtRatioRaw sqrtRatioX96)

/-- Bit-by-bit integer square root: process one bit (value `2 ^ k`) per
step, keeping the largest accumulator whose square is at most `n`.
`Nat.sqrt` itself is defined by well-founded recursion, which the kernel
cannot evaluate; this structural version can, and `intSqrt_eq_sqrt` below
proves it computes the same function. -/
def isqrtGo (n : ℕ) : ℕ → ℕ → ℕ
  | acc, 0 => acc
  | acc, k + 1 =>
    let c := acc + 2 ^ k
    isqrtGo n (if c * c ≤ n then c else acc) k

/-- Integer square root of `n`: run the bisection from bit
`⌊log2 n⌋ / 2` downwards. -/
def intSqrt (n : ℕ) : ℕ := isqrtGo n 0 (msbFuel n n / 2 + 1)

lemma msbFuel_spec : ∀ (fuel n : ℕ), 1 ≤ n → n ≤ fuel →
    2 ^ msbFuel fuel n ≤ n ∧ n < 2 ^ (msbFuel fuel n + 1) := by
  intro fuel
  induction fuel with
  | zero => intro n h1 h2; omega
  | succ fuel ih =>
    intro n h1 h2
    by_cases hn : n < 2
    · simp only [msbFuel, if_pos hn]; omega
    · have hhalf := ih (n / 2) (by omega) (by omega)
      simp only [msbFuel, if_neg hn]
      set m := msbFuel fuel (n / 2) with hm
      have e1 : 2 ^ (1 + m) = 2 * 2 ^ m := by rw [add_comm]; exact pow_succ' 2 m
      have e2 : 2 ^ (1 + m + 1) = 2 * 2 ^ (m + 1) := by
        rw [show 1 + m + 1 = m + 1 + 1 from by omega]; exact pow_succ' 2 (m + 1)
      omega

lemma isqrtGo_spec (n : ℕ) : ∀ (k acc : ℕ), acc * acc ≤ n →
    n < (acc + 2 ^ k) * (acc + 2 ^ k) →
    isqrtGo n acc k * isqrtGo n acc k ≤ n ∧
      n < (isqrtGo n acc k + 1) * (isqrtGo n acc k + 1) := by
  intro k
  induction k with
  | zero => intro acc h1 h2; simp only [isqrtGo]; simpa using ⟨h1, h2⟩
  | succ k ih =>
    intro acc h1 h2
    simp only [isqrtGo]
    by_cases hc : (acc + 2 ^ k) * (acc + 2 ^ k) ≤ n
    · rw [if_pos hc]
      refine ih (acc + 2 ^ k) hc ?_
      have e : acc + 2 ^ k + 2 ^ k = acc + 2 ^ (k + 1) := by
        have := pow_succ 2 k; omega
      rw [e]; exact h2
    · rw [if_neg hc]
      exact ih acc h1 (by omega)

lemma intSqrt_spec (n : ℕ) :
    intSqrt n * intSqrt n ≤ n ∧ n < (intSqrt n + 1) * (intSqrt n + 1) := by
  refine isqrtGo_spec n _ 0 (by omega) ?_
  rcases Nat.eq_zero_or_pos n with h0 | hpos
  · subst h0; positivity
  · have hmsb := msbFuel_spec n n hpos le_rfl
    set L := msbFuel n n with hL
    have hle : L + 1 ≤ 2 * (L / 2 + 1) := by omega
    calc n < 2 ^ (L + 1) := hmsb.2
    _ ≤ 2 ^ (2 * (L / 2 + 1)) := Nat.pow_le_pow_right (by omega) hle
    _ = (0 + 2 ^ (L / 2 + 1)) * (0 + 2 ^ (L / 2 + 1)) := by
        rw [Nat.zero_add, ← pow_add]; ring_nf

lemma intSqrt_eq_sqrt (n : ℕ) : intSqrt n = Nat.sqrt n := by
  have h := intSqrt_spec n
  have h1 : intSqrt n ≤ Nat.sqrt n := Nat.le_sqrt.mpr h.1
  have h2 : Nat.sqrt n < intSqrt n + 1 := by
    rw [Nat.sqrt_lt]
    exact h.2
  omega

/-- price.ts `priceToTick`, steps 2-3: the decimal-adjusted price
`decimalAdjustedPrice = price * 10 ^ (baseToken.decimals - quoteToken.decimals)`
followed by `Math.floor(Math.sqrt(decimalAdjustedPrice) * 2 ** 96)`,
idealized to exact arithmetic:
`⌊√A * 2^96⌋ = Nat.sqrt ⌊A * 2^192⌋` (computed by `intSqrt`, which equals
`Nat.sqrt` by `intSqrt_eq_sqrt`), and
`⌊A * 2^192⌋ = (price.num * 10^bd * 2^192).ediv (price.den * 10^qd)`
since `A * 2^192` is exactly that (possibly unreduced) fraction. -/
def sqrtRatioX96OfPrice (price : ℚ) (baseDecimals quoteDecimals : ℕ) : ℕ :=
  intSqrt ((Int.ediv (price.num * 10 ^ baseDecimals * 2 ^ 192)
    (price.den * 10 ^ quoteDecimals)).toNat)

/-- price.ts `priceToTick` (first version, lines 45-99): validates
`price > 0`, adjusts by the decimal difference, converts through the
square-root-price to a raw tick, rounds to the nearest multiple of the fee
tier's tick spacing, and checks the global bounds.  The `catch` block only
re-wraps error messages, so error kinds pass through unchanged.  The fee
tier defaults to 500. -/
def priceToTick (price : ℚ) (baseToken quoteToken : Token)
    (feeTier : ℕ := 500) : Except Err ℤ :=
  if price ≤ 0 then .error .InvalidInput
  else
    let sqrtRatioX96 := sqrtRatioX96OfPrice price baseToken.decimals quoteToken.decimals
    match getTickAtSqrtRatio sqrtRatioX96 with
    | .error e => .error e
    | .ok tick =>
      match TICK_SPACINGS feeTier with
      | none => .error .InvalidFeeTier
      | some tickSpacing =>
        let roundedTick := jsRoundDiv tick tickSpacing * tickSpacing
        if roundedTick < MIN_TICK ∨ roundedTick > MAX_TICK then .error .OutOfRange
        else .ok roundedTick

/-- price.ts `tickToTokenPrice` (first version, lines 111-132):
`ratio = sqrtRatioX96² / 2^192`, then multiply by
`10 ^ (quoteToken.decimals - baseToken.decimals)`; built here as one exact
rational.  The tick-bound invariant is raised by the sdk's
`getSqrtRatioAtTick`. -/
def tickToTokenPrice (tick : ℤ) (baseToken quoteToken : Token) : Except Err ℚ :=
  match getSqrtRatioAtTick tick with
  | .error e => .error e
  | .ok s =>
    .ok (mkRat (s * s * 10 ^ quoteToken.decimals) (2 ^ 192 * 10 ^ baseToken.decimals))

/-- price.ts `validatePriceRange`. -/
def validatePriceRange (desiredLowerPrice desiredUpperPrice : ℚ) : Except Err Bool :=
  if desiredLowerPrice ≥ desiredUpperPrice then .error .InvalidRange
  else if desiredLowerPrice ≤ 0 ∨ desiredUpperPrice ≤ 0 then .error .InvalidInput
  else .ok true

/-- Round-trip checker for the §8 property: run
`tickToTokenPrice (priceToTick p base quote fee) base quote` and test that
the result is within 1% relative tolerance of `p`.  The tolerance test
`|p' - p| * 100 < p` is cross-multiplied into integer arithmetic:
for positive `p`, it is `|p'.num * p.den - p.num * p'.den| * 100 < p.num * p'.den`. -/
def roundTripWithin1Percent (price : ℚ) (baseToken quoteToken : Token)
    (feeTier : ℕ) : Bool :=
  match priceToTick price baseToken quoteToken feeTier with
  | .error _ => false
  | .ok tick =>
    match tickToTokenPrice tick baseToken quoteToken with
    | .error _ => false
    | .ok p =>
      (p.num * price.den - price.num * p.den).natAbs * 100 < price.num.toNat * p.den

/-- Code point of one character after JavaScript `toLowerCase`, which for the
ASCII range of hex addresses maps `A`-`Z` (65-90) to `a`-`z` (97-122). -/
def charLower (c : Char) : ℕ :=
  if 65 ≤ c.toNat ∧ c.toNat ≤ 90 then c.toNat + 32 else c.toNat

/-- Code points of a string, lowercased. -/
def lowerData (s : String) : List ℕ := s.data.map charLower

/-- Lexicographic `<` on code-point lists (JavaScript string comparison
compares code units, which for ASCII are the code points). -/
def charsLt : List ℕ → List ℕ → Bool
  | [], [] => false
  | [], _ :: _ => true
  | _ :: _, [] => false
  | a :: as, b :: bs => if a < b then true else if b < a then false else charsLt as bs

/-- Exact inverse of a rational (`1 / q`, with `ratInv 0 = 0`), written with
`mkRat` so that the kernel can evaluate it. -/
def ratInv (q : ℚ) : ℚ :=
  if q.num < 0 then mkRat (-(q.den : ℤ)) q.num.natAbs
  else mkRat (q.den : ℤ) q.num.natAbs

/-- Modelled from the spec (§4.1): the orientation handling the spec ascribes
to `priceToTick` but that is absent from every version of `price.ts`.  Per
the spec's words: establish token ordering by case-insensitive comparison of
the addresses (the lower address is token0); when the supplied `baseToken`
is token1, the supplied quote-per-base price is inverted so that it is
re-expressed in the pool's token1-per-token0 convention before converting to
a tick (equivalently, convert the inverted price with the token roles
swapped). -/
def priceToTickOriented (price : ℚ) (baseToken quoteToken : Token)
    (feeTier : ℕ := 500) : Except Err ℤ :=
  if charsLt (lowerData baseToken.address) (lowerData quoteToken.address) then
    priceToTick price baseToken quoteToken feeTier
  else
    priceToTick (ratInv price) quoteToken baseToken feeTier

/-- Pool state, from `@uniswap/v3-sdk` `Pool` as consumed by
`calculateOptimalAmounts` (`position.ts`); the sdk derives `tickSpacing`
from the fee via its own `TICK_SPACINGS` map, identical to the one in
`constants.ts`. -/
structure Pool where
  token0 : Token
  token1 : Token
  fee : ℕ
  sqrtRatioX96 : ℕ
  liquidity : ℕ
  tickCurrent : ℤ
deriving DecidableEq, Repr

/-- v3-sdk FullMath `mulDivRoundingUp` with unit denominator folded in:
ceiling division. -/
def divRoundingUp (a b : ℕ) : ℕ := a / b + (if a % b = 0 then 0 else 1)

/-- v3-sdk SqrtPriceMath `getAmount0Delta` with `roundUp = true` (the branch
`Position.mintAmounts` uses): sort the two sqrt ratios, then
`ceil(ceil(liquidity * 2^96 * (upper - lower) / upper) / lower)`. -/
def getAmount0Delta (sqrtRatioAX96 sqrtRatioBX96 liquidity : ℕ) : ℕ :=
  let lower := min sqrtRatioAX96 sqrtRatioBX96
  let upper := max sqrtRatioAX96 sqrtRatioBX96
  divRoundingUp (divRoundingUp (liquidity * 2 ^ 96 * (upper - lower)) upper) lower

/-- v3-sdk SqrtPriceMath `getAmount1Delta` with `roundUp = true`:
`ceil(liquidity * (upper - lower) / 2^96)`. -/
def getAmount1Delta (sqrtRatioAX96 sqrtRatioBX96 liquidity : ℕ) : ℕ :=
  let lower := min sqrtRatioAX96 sqrtRatioBX96
  let upper := max sqrtRatioAX96 sqrtRatioBX96
  divRoundingUp (liquidity * (upper - lower)) (2 ^ 96)

/-- Digits of a decimal string fragment: `some value` when every character
is an ASCII digit (the empty fragment parses as 0), `none` otherwise. -/
def digitsToNat : List Char → Option ℕ
  | [] => some 0
  | c :: cs =>
    if c.isDigit then
      (digitsToNat cs).map fun rest => (c.toNat - 48) * 10 ^ cs.length + rest
    else none

/-- ethers v6 `parseEther` (= `parseUnits` with 18 decimals, via
`FixedNumber.fromString`): an optional leading minus sign, then
`whole.frac` with at most one dot, only digits, at least one digit overall,
and at most 18 fractional digits; the value is in wei
(`whole * 10^18 + frac` padded to 18 places).  `none` models the thrown
`NumericFault`/`InvalidArgument` errors. -/
def parseEther (s : String) : Option ℤ :=
  let p :=
    match s.data with
    | '-' :: rest => (true, rest)
    | cs => (false, cs)
  let whole := p.2.takeWhile (fun c => c ≠ '.')
  let rest := p.2.dropWhile (fun c => c ≠ '.')
  let fracPart : Option (List Char) :=
    match rest with
    | [] => some []
    | '.' :: frac => if frac.contains '.' then none else some frac
    | _ => none
  match fracPart with
  | none => none
  | some frac =>
    if whole.isEmpty ∧ frac.isEmpty then none
    else if 18 < frac.length then none
    else
      match digitsToNat whole, digitsToNat frac with
      | some w, some f =>
        let value : ℤ := w * 10 ^ 18 + f * 10 ^ (18 - frac.length)
        some (if p.1 then -value else value)
      | _, _ => none

/-- position.ts `calculateOptimalAmounts` (lines 40-82).  Steps, in source
order: (1) `lowerTick >= upperTick` fails (`InvalidRange`); (2)
`ethers.parseEther(liquidityAmount)` (a parse failure propagates,
`InvalidInput`) and `liquidityBigInt <= 0` fails (`InvalidInput`); (3) the
sdk `Position` constructor invariants `TICK_LOWER` / `TICK_UPPER` (tick
bounds and tick-spacing alignment, `InvalidTickAlignment`); (4)
`position.mintAmounts`, the three-region constant-liquidity formula; (5)
both amounts zero fails (`InvalidPosition`). -/
def calculateOptimalAmounts (pool : Pool) (lowerTick upperTick : ℤ)
    (liquidityAmount : String) : Except Err (ℤ × ℤ) :=
  if lowerTick ≥ upperTick then .error .InvalidRange
  else
    match parseEther liquidityAmount with
    | none => .error .InvalidInput
    | some liquidityBigInt =>
      if liquidityBigInt ≤ 0 then .error .InvalidInput
      else
        let tickSpacing : ℤ := ((TICK_SPACINGS pool.fee).getD 0 : ℕ)
        if ¬(MIN_TICK ≤ lowerTick ∧ lowerTick % tickSpacing = 0) then
          .error .InvalidTickAlignment
        else if ¬(upperTick ≤ MAX_TICK ∧ upperTick % tickSpacing = 0) then
          .error .InvalidTickAlignment
        else
          let liquidity := liquidityBigInt.toNat
          let sqrtLower := getSqrtRatioAtTickRaw lowerTick
          let sqrtUpper := getSqrtRatioAtTickRaw upperTick
          let amounts : ℕ × ℕ :=
            if pool.tickCurrent < lowerTick then
              (getAmount0Delta sqrtLower sqrtUpper liquidity, 0)
            else if pool.tickCurrent < upperTick then
              (getAmount0Delta pool.sqrtRatioX96 sqrtUpper liquidity,
               getAmount1Delta sqrtLower pool.sqrtRatioX96 liquidity)
            else
              (0, getAmount1Delta sqrtLower sqrtUpper liquidity)
          let amount0 : ℤ := amounts.1
          let amount1 : ℤ := amounts.2
          if amount0 ≤ 0 ∧ amount1 ≤ 0 then .error .InvalidPosition
          else .ok (amount0, amount1)

/-- Result record of `calculateMinimumAmounts`. -/
structure MinAmounts where
  amount0Min : ℤ
  amount1Min : ℤ
deriving DecidableEq, Repr

/-- position.ts `calculateMinimumAmounts` (lines 88-102), the version the
claims cite: NO validation of `slippageTolerance` is performed;
`slippageMultiplier = BigInt(Math.floor((1 - slippageTolerance) * 10000))`
and each minimum is `desired * slippageMultiplier / 10000` in `BigInt`
arithmetic (division truncating toward zero).  The default tolerance is
`SLIPPAGE_TOLERANCE = 0.005`.  The multiplier is written on the numerator
and denominator of the exact tolerance so that the kernel can evaluate it:
`(1 - s) = (s.den - s.num) / s.den`, and the `Int.ediv` of a fraction's
numerator by its positive denominator is its floor
(`slippageMultiplier_floor` below proves it equal to `⌊(1 - s) * 10000⌋`,
the exact-arithmetic reading of `Math.floor((1 - s) * 10000)`). -/
def calculateMinimumAmounts (desiredAmount0 desiredAmount1 : ℤ)
    (slippageTolerance : ℚ := SLIPPAGE_TOLERANCE) : Except Err MinAmounts :=
  let slippageMultiplier : ℤ :=
    Int.ediv ((slippageTolerance.den - slippageTolerance.num) * 10000) slippageTolerance.den
  let BASE : ℤ := 10000
  .ok { amount0Min := jsDiv (desiredAmount0 * slippageMultiplier) BASE,
        amount1Min := jsDiv (desiredAmount1 * slippageMultiplier) BASE }

set_option maxRecDepth 1000000

/-- C2: for representative prices across several orders of magnitude (0.001
to 123456) and both token-decimal orderings (base 18 / quote 6 and base 6 /
quote 18), composing the converter in both directions,
`tickToTokenPrice (priceToTick p base quote fee) base quote`, yields a price
within 1% relative tolerance of `p` — here verified for every fee tier. -/
theorem roundTrip_representative_prices :
  (([mkRat 1 1000, mkRat 1 2, mkRat 1 1, mkRat 45 1, mkRat 1800 1,
     mkRat 123456 1]).all fun price =>
    (([500, 3000, 10000] : List ℕ).all fun feeTier =>
      roundTripWithin1Percent price WETH USDC feeTier &&
      roundTripWithin1Percent price USDC WETH feeTier)) = true := by decide

/-- C3 counterexample: `priceToTick` does not perform the orientation
handling the claim describes.  With two equal-decimal tokens whose
case-insensitive address order makes the base token token1 (address `0xBB`
sorts after `0xAA`), the claim requires the supplied quote-per-base price 4
to be inverted before conversion, which yields tick `-13860` (as the
spec-modelled `priceToTickOriented` shows); the code uses the price exactly
as supplied and returns `+13860`. -/
theorem priceToTick_no_orientation_counterexample :
  priceToTick (mkRat 4 1) (⟨1, r"0xBB", 18, r"T1"⟩ : Token) (⟨1, r"0xAA", 18, r"T2"⟩ : Token) 500 = .ok 13860 ∧
  priceToTickOriented (mkRat 4 1) (⟨1, r"0xBB", 18, r"T1"⟩ : Token) (⟨1, r"0xAA", 18, r"T2"⟩ : Token) 500 = .ok (-13860) ∧
  charsLt (lowerData (Token.mk 1 r"0xBB" 18 r"T1").address)
    (lowerData (Token.mk 1 r"0xAA" 18 r"T2").address) = false ∧
  (13860 : ℤ) ≠ -13860 := by decide

/-- C3 amended: `priceToTick` never inspects the token addresses (or any
token field other than `decimals`): its result is invariant under replacing
the addresses, chain ids and symbols of both tokens.  The supplied
quote-per-base price is only scaled by
`10 ^ (baseToken.decimals - quoteToken.decimals)` and is never inverted. -/
theorem priceToTick_ignores_addresses (price : ℚ) (feeTier : ℕ)
    (c1 c2 c1' c2' d1 d2 : ℕ) (a1 a2 a1' a2' s1 s2 s1' s2' : String) :
    priceToTick price ⟨c1, a1, d1, s1⟩ ⟨c2, a2, d2, s2⟩ feeTier =
    priceToTick price ⟨c1', a1', d1, s1'⟩ ⟨c2', a2', d2, s2'⟩ feeTier := rfl

/-- C4: for every fee tier recognized by `TICK_SPACINGS` (exactly LOW 500,
MEDIUM 3000 and HIGH 10000) and every price input on which `priceToTick`
returns a tick, the returned tick is an exact integer multiple of that fee
tier's tick spacing and lies within `[MIN_TICK, MAX_TICK] = [-887272, 887272]`. -/
theorem priceToTick_alignment_and_bounds (price : ℚ) (baseToken quoteToken : Token)
    (feeTier : ℕ) (tickSpacing : ℕ) (t : ℤ)
    (hsp : TICK_SPACINGS feeTier = some tickSpacing)
    (hok : priceToTick price baseToken quoteToken feeTier = .ok t) :
    t % (tickSpacing : ℤ) = 0 ∧ MIN_TICK ≤ t ∧ t ≤ MAX_TICK := by
  simp only [priceToTick] at hok
  split at hok
  · exact absurd hok (by simp)
  · cases hgt : getTickAtSqrtRatio
        (sqrtRatioX96OfPrice price baseToken.decimals quoteToken.decimals) with
    | error e => rw [hgt] at hok; simp at hok
    | ok rawTick =>
      rw [hgt, hsp] at hok
      simp only at hok
      split at hok
      · simp at hok
      · rename_i hbound
        have ht : jsRoundDiv rawTick tickSpacing * tickSpacing = t :=
          Except.ok.inj hok
        subst ht
        push_neg at hbound
        exact ⟨Int.mul_emod_left _ _, hbound.1, hbound.2⟩

/-- C4 witness: a concrete run of `priceToTick_alignment_and_bounds`
(price 1800, WETH/USDC, LOW fee tier, returned tick 351280). -/
theorem priceToTick_alignment_and_bounds_witness :
  (351280 : ℤ) % ((10 : ℕ) : ℤ) = 0 ∧ MIN_TICK ≤ (351280 : ℤ) ∧ (351280 : ℤ) ≤ MAX_TICK :=
  priceToTick_alignment_and_bounds (mkRat 1800 1) WETH USDC 500 10 351280
    (by decide) (by decide)

/-- C5: `priceToTick` derives its final tick from the raw tick by quantizing
to the nearest multiple of the tick spacing,
`Math.round(rawTick / tickSpacing) * tickSpacing`, clamping the result into
`[MIN_TICK, MAX_TICK]` (vacuously, since a result is only returned when the
quantized tick already lies inside the bounds), and failing with
`OutOfRange` exactly when the quantized tick falls outside the global
bounds. -/
theorem priceToTick_quantize_then_clamp (price : ℚ) (baseToken quoteToken : Token)
    (feeTier : ℕ) (tickSpacing : ℕ) (rawTick : ℤ)
    (hpos : 0 < price)
    (hsp : TICK_SPACINGS feeTier = some tickSpacing)
    (hraw : getTickAtSqrtRatio
      (sqrtRatioX96OfPrice price baseToken.decimals quoteToken.decimals) = .ok rawTick) :
    (MIN_TICK ≤ jsRoundDiv rawTick tickSpacing * tickSpacing ∧
       jsRoundDiv rawTick tickSpacing * tickSpacing ≤ MAX_TICK →
       priceToTick price baseToken quoteToken feeTier =
         .ok (max MIN_TICK (min MAX_TICK (jsRoundDiv rawTick tickSpacing * tickSpacing)))) ∧
    (jsRoundDiv rawTick tickSpacing * tickSpacing < MIN_TICK ∨
       MAX_TICK < jsRoundDiv rawTick tickSpacing * tickSpacing →
       priceToTick price baseToken quoteToken feeTier = .error .OutOfRange) := by
  have hple : ¬ price ≤ 0 := not_le.mpr hpos
  constructor
  · intro h
    have hcl : max MIN_TICK (min MAX_TICK (jsRoundDiv rawTick tickSpacing * tickSpacing)) =
        jsRoundDiv rawTick tickSpacing * tickSpacing := by
      simp only [MIN_TICK, MAX_TICK] at h ⊢
      omega
    rw [hcl]
    simp only [priceToTick, if_neg hple, hraw, hsp]
    rw [if_neg]
    simp only [MIN_TICK, MAX_TICK] at h ⊢
    omega
  · intro h
    simp only [priceToTick, if_neg hple, hraw, hsp]
    rw [if_pos]
    simp only [MIN_TICK, MAX_TICK] at h ⊢
    omega

/-- C5 witness: a concrete run through the in-bounds branch of
`priceToTick_quantize_then_clamp` (price 1800, 18/6 decimals, LOW fee tier;
the raw tick is 351283 and the quantized tick 351280). -/
theorem priceToTick_quantize_then_clamp_witness :
  priceToTick (mkRat 1800 1) WETH USDC 500 =
    .ok (max MIN_TICK (min MAX_TICK (jsRoundDiv 351283 10 * 10))) :=
  (priceToTick_quantize_then_clamp (mkRat 1800 1) WETH USDC 500 10 351283
    (by decide) (by decide) (by decide)).1 (by decide)

lemma mkRat_ten_thousand : (mkRat 10000 1 : ℚ) = 10000 := by
  rw [Rat.mkRat_eq_div]; norm_num

lemma jsFloorQ_eq_floor (q : ℚ) : jsFloorQ q = ⌊q⌋ := by
  rw [Rat.floor_def]; rfl

lemma slip_le (a m : ℤ) (ha : 0 ≤ a) (hm0 : 0 ≤ m) (hm : m ≤ 10000) :
    jsDiv (a * m) 10000 ≤ a := by
  rw [jsDiv, Int.tdiv_eq_ediv (by positivity) (by norm_num)]
  calc a * m / 10000 ≤ a * 10000 / 10000 :=
        Int.ediv_le_ediv (by norm_num) (by nlinarith)
  _ = a := Int.mul_ediv_cancel a (by norm_num)

lemma slip_eq (a : ℤ) : jsDiv (a * 10000) 10000 = a := by
  rw [jsDiv, Int.mul_tdiv_cancel a (by norm_num)]

lemma slip_lt (a m : ℤ) (ha : 0 < a) (hm0 : 0 ≤ m) (hm : m ≤ 9999) :
    jsDiv (a * m) 10000 < a := by
  rw [jsDiv, Int.tdiv_eq_ediv (by positivity) (by norm_num)]
  rw [Int.ediv_lt_iff_lt_mul (by norm_num)]
  nlinarith

lemma slippageMultiplier_floor (s : ℚ) :
    Int.ediv ((s.den - s.num) * 10000) s.den = ⌊(1 - s) * 10000⌋ := by
  have hden : ((s.den : ℕ) : ℚ) ≠ 0 := Nat.cast_ne_zero.mpr s.den_ne_zero
  have hs : s * (s.den : ℚ) = (s.num : ℚ) := by
    have h := Rat.num_div_den s
    rw [div_eq_iff hden] at h
    exact h.symm
  have key : ((1 : ℚ) - s) * 10000 =
      ((((s.den : ℤ) - s.num) * 10000 : ℤ) : ℚ) / ((s.den : ℕ) : ℚ) := by
    rw [eq_div_iff hden]
    push_cast
    linear_combination (-10000 : ℚ) * hs
  rw [key, Rat.floor_intCast_div_natCast]
  rfl

lemma slippageMultiplier_nonneg (s : ℚ) (h1 : s < 1) : 0 ≤ ⌊(1 - s) * 10000⌋ :=
  Int.floor_nonneg.mpr (by nlinarith)

lemma slippageMultiplier_le (s : ℚ) (h0 : 0 ≤ s) : ⌊(1 - s) * 10000⌋ ≤ 10000 := by
  have h : (1 - s) * 10000 ≤ ((10000 : ℤ) : ℚ) := by push_cast; nlinarith
  calc ⌊(1 - s) * 10000⌋ ≤ ⌊((10000 : ℤ) : ℚ)⌋ := Int.floor_le_floor h
  _ = 10000 := Int.floor_intCast 10000

lemma slippageMultiplier_lt (s : ℚ) (h0 : 0 < s) : ⌊(1 - s) * 10000⌋ ≤ 9999 := by
  have h : (1 - s) * 10000 < ((10000 : ℤ) : ℚ) := by push_cast; nlinarith
  have := Int.floor_lt.mpr h
  omega

lemma slippageMultiplier_zero : ⌊((1 : ℚ) - 0) * 10000⌋ = 10000 := by
  norm_num

/-- C1 amended: for non-negative integer amounts and any rational slippage
tolerance `0 ≤ s < 1`, `calculateMinimumAmounts` returns
`amount0Min ≤ amount0` and `amount1Min ≤ amount1`; equality holds whenever
`s = 0`, and for a POSITIVE amount equality holds only when `s = 0` (a zero
amount yields equality for every tolerance, which is the one correction to
the claim); in particular
`calculateMinimumAmounts 1000000 1000000 0.005` returns
`amount0Min = 995000`, in exact basis-point arithmetic. -/
theorem calculateMinimumAmounts_slippage_spec :
  (∀ (a0 a1 : ℤ) (s : ℚ) (r : MinAmounts), 0 ≤ a0 → 0 ≤ a1 → 0 ≤ s → s < 1 →
    calculateMinimumAmounts a0 a1 s = .ok r →
    (r.amount0Min ≤ a0 ∧ r.amount1Min ≤ a1) ∧
    (s = 0 → r.amount0Min = a0 ∧ r.amount1Min = a1) ∧
    (0 < a0 → r.amount0Min = a0 → s = 0) ∧
    (0 < a1 → r.amount1Min = a1 → s = 0)) ∧
  calculateMinimumAmounts 1000000 1000000 (mkRat 1 200) = .ok ⟨995000, 995000⟩ := by
  constructor
  · intro a0 a1 s r ha0 ha1 hs0 hs1 hok
    simp only [calculateMinimumAmounts, slippageMultiplier_floor, Except.ok.injEq] at hok
    set m := ⌊(1 - s) * 10000⌋ with hm
    have hm0 : 0 ≤ m := slippageMultiplier_nonneg s hs1
    have hmle : m ≤ 10000 := slippageMultiplier_le s hs0
    have hr0 : r.amount0Min = jsDiv (a0 * m) 10000 := by rw [← hok]
    have hr1 : r.amount1Min = jsDiv (a1 * m) 10000 := by rw [← hok]
    refine ⟨⟨?_, ?_⟩, ?_, ?_, ?_⟩
    · rw [hr0]; exact slip_le a0 m ha0 hm0 hmle
    · rw [hr1]; exact slip_le a1 m ha1 hm0 hmle
    · intro hsz
      subst hsz
      have hmz : m = 10000 := slippageMultiplier_zero
      rw [hr0, hr1, hmz]
      exact ⟨slip_eq a0, slip_eq a1⟩
    · intro hpos heq
      by_contra hne
      have hslt : 0 < s := lt_of_le_of_ne hs0 (Ne.symm hne)
      have : jsDiv (a0 * m) 10000 < a0 :=
        slip_lt a0 m hpos hm0 (slippageMultiplier_lt s hslt)
      omega
    · intro hpos heq
      by_contra hne
      have hslt : 0 < s := lt_of_le_of_ne hs0 (Ne.symm hne)
      have : jsDiv (a1 * m) 10000 < a1 :=
        slip_lt a1 m hpos hm0 (slippageMultiplier_lt s hslt)
      omega
  · decide

/-- C1 witness: the general part of `calculateMinimumAmounts_slippage_spec`
instantiated on the claim's own example, amounts 1000000 and slippage 0.005
(result 995000 for both tokens). -/
theorem calculateMinimumAmounts_slippage_spec_witness :
  ((995000 : ℤ) ≤ 1000000 ∧ (995000 : ℤ) ≤ 1000000) ∧
  (mkRat 1 200 = 0 → (995000 : ℤ) = 1000000 ∧ (995000 : ℤ) = 1000000) ∧
  ((0 : ℤ) < 1000000 → (995000 : ℤ) = 1000000 → mkRat 1 200 = 0) ∧
  ((0 : ℤ) < 1000000 → (995000 : ℤ) = 1000000 → mkRat 1 200 = 0) :=
  calculateMinimumAmounts_slippage_spec.1 1000000 1000000 (mkRat 1 200)
    ⟨995000, 995000⟩ (by decide) (by decide) (by decide) (by decide) (by decide)

/-- C1 counterexample: the claimed equivalence "amountXMin = amountX if and
only if s = 0" fails for zero amounts: with the in-range tolerance
`s = 0.005 ≠ 0` and `amount0 = amount1 = 0`, the returned minimums equal the
amounts. -/
theorem calculateMinimumAmounts_zero_amount_counterexample :
  calculateMinimumAmounts 0 0 (mkRat 1 200) = .ok ⟨0, 0⟩ ∧
  (mkRat 1 200 : ℚ) ≠ 0 ∧ (0 : ℚ) ≤ mkRat 1 200 ∧ (mkRat 1 200 : ℚ) < 1 := by decide

/-- C6 counterexample: `calculateMinimumAmounts` (the cited version,
position.ts lines 88-102) performs NO validation of `slippageTolerance`:
for the out-of-range tolerance 1.5 it does not fail with `InvalidInput` (or
at all); it silently returns negative minimums `-500` for amounts 1000. -/
theorem calculateMinimumAmounts_no_validation_counterexample :
  calculateMinimumAmounts 1000 1000 (mkRat 3 2) = .ok ⟨-500, -500⟩ ∧
  calculateMinimumAmounts 1000 1000 (mkRat 3 2) ≠ .error .InvalidInput := by decide

/-- C6 amended: `calculateMinimumAmounts` accepts every slippage tolerance
without validation: for any tolerance outside `[0, 1)` it still returns a
result (never an error of any kind), and for tolerances `s ≥ 2` with
positive amounts the returned minimums are negative. -/
theorem calculateMinimumAmounts_accepts_any_slippage :
  ∀ (a0 a1 : ℤ) (s : ℚ), s < 0 ∨ 1 ≤ s →
    (∀ e : Err, calculateMinimumAmounts a0 a1 s ≠ .error e) ∧
    (2 ≤ s → 0 < a0 → ∀ r : MinAmounts,
      calculateMinimumAmounts a0 a1 s = .ok r → r.amount0Min < 0) := by
  intro a0 a1 s _
  constructor
  · intro e
    simp [calculateMinimumAmounts]
  · intro hs2 hpos r hok
    simp only [calculateMinimumAmounts, slippageMultiplier_floor, Except.ok.injEq] at hok
    set m := ⌊(1 - s) * 10000⌋ with hm
    have hmle : m ≤ -10000 := by
      have h : (1 - s) * 10000 ≤ ((-10000 : ℤ) : ℚ) := by push_cast; nlinarith
      calc m ≤ ⌊((-10000 : ℤ) : ℚ)⌋ := Int.floor_le_floor h
      _ = -10000 := Int.floor_intCast _
    have hr0 : r.amount0Min = jsDiv (a0 * m) 10000 := by rw [← hok]
    have hk : a0 * m = -(a0 * (-m)) := by ring
    have hdiv : a0 ≤ jsDiv (a0 * (-m)) 10000 := by
      rw [jsDiv, Int.tdiv_eq_ediv (by nlinarith) (by norm_num)]
      calc a0 = a0 * 10000 / 10000 := (Int.mul_ediv_cancel a0 (by norm_num)).symm
      _ ≤ a0 * (-m) / 10000 := Int.ediv_le_ediv (by norm_num) (by nlinarith)
    rw [hr0, hk, jsDiv, Int.neg_tdiv]
    have : 0 < Int.tdiv (a0 * (-m)) 10000 := lt_of_lt_of_le hpos hdiv
    omega

/-- C6 witness: `calculateMinimumAmounts_accepts_any_slippage` applied at
amounts 1000 and tolerance 1.5 — no `InvalidInput` error is raised. -/
theorem calculateMinimumAmounts_accepts_any_slippage_witness :
  calculateMinimumAmounts 1000 1000 (mkRat 3 2) ≠ .error .InvalidInput :=
  (calculateMinimumAmounts_accepts_any_slippage 1000 1000 (mkRat 3 2)
    (Or.inr (by decide))).1 .InvalidInput

/-- C7 counterexample: the preconditions of `calculateOptimalAmounts` are
checked in a fixed order, so the claim's unconditional clauses are false.
With `lowerTick = 100 ≥ upperTick = 50` on a MEDIUM-fee pool (tick spacing
60), both ticks are misaligned (`100 % 60 ≠ 0`), yet the function fails with
`InvalidRange`, not `InvalidTickAlignment`; likewise with the non-positive
size input `0` it still fails with `InvalidRange`, not `InvalidInput`. -/
theorem calculateOptimalAmounts_precedence_counterexample :
  calculateOptimalAmounts
      (Pool.mk WETH USDC 3000 (getSqrtRatioAtTickRaw 351283) 0 351283)
      100 50 (r"1.0") = .error .InvalidRange ∧
  calculateOptimalAmounts
      (Pool.mk WETH USDC 3000 (getSqrtRatioAtTickRaw 351283) 0 351283)
      100 50 (r"0") = .error .InvalidRange ∧
  ¬((100 : ℤ) % (60 : ℤ) = 0) ∧
  Err.InvalidRange ≠ Err.InvalidTickAlignment ∧
  Err.InvalidRange ≠ Err.InvalidInput := by decide

/-- C7 amended: `calculateOptimalAmounts` enforces its preconditions before
computing amounts, in source order: (1) `tickLower ≥ tickUpper` always fails
with `InvalidRange`; (2) otherwise, a `sizeInput` that does not parse, or
parses non-positive, fails with `InvalidInput`; (3) otherwise, a `lowerTick`
violating the tick invariant (spacing alignment / lower bound) fails with
`InvalidTickAlignment`; (4) otherwise, an `upperTick` violating the tick
invariant fails with `InvalidTickAlignment`. -/
theorem calculateOptimalAmounts_preconditions :
  ∀ (pool : Pool) (lowerTick upperTick : ℤ) (sizeInput : String),
    (upperTick ≤ lowerTick →
      calculateOptimalAmounts pool lowerTick upperTick sizeInput = .error .InvalidRange) ∧
    (lowerTick < upperTick → parseEther sizeInput = none →
      calculateOptimalAmounts pool lowerTick upperTick sizeInput = .error .InvalidInput) ∧
    (∀ v : ℤ, lowerTick < upperTick → parseEther sizeInput = some v → v ≤ 0 →
      calculateOptimalAmounts pool lowerTick upperTick sizeInput = .error .InvalidInput) ∧
    (∀ v : ℤ, lowerTick < upperTick → parseEther sizeInput = some v → 0 < v →
      ¬(MIN_TICK ≤ lowerTick ∧
          lowerTick % (((TICK_SPACINGS pool.fee).getD 0 : ℕ) : ℤ) = 0) →
      calculateOptimalAmounts pool lowerTick upperTick sizeInput = .error .InvalidTickAlignment) ∧
    (∀ v : ℤ, lowerTick < upperTick → parseEther sizeInput = some v → 0 < v →
      (MIN_TICK ≤ lowerTick ∧
          lowerTick % (((TICK_SPACINGS pool.fee).getD 0 : ℕ) : ℤ) = 0) →
      ¬(upperTick ≤ MAX_TICK ∧
          upperTick % (((TICK_SPACINGS pool.fee).getD 0 : ℕ) : ℤ) = 0) →
      calculateOptimalAmounts pool lowerTick upperTick sizeInput = .error .InvalidTickAlignment) := by
  intro pool lowerTick upperTick sizeInput
  refine ⟨?_, ?_, ?_, ?_, ?_⟩
  · intro h
    simp only [calculateOptimalAmounts, if_pos (show lowerTick ≥ upperTick from h)]
  · intro horder hparse
    simp only [calculateOptimalAmounts, if_neg (not_le.mpr horder), hparse]
  · intro v horder hparse hv
    simp only [calculateOptimalAmounts, if_neg (not_le.mpr horder), hparse,
      if_pos hv]
  · intro v horder hparse hv hmis
    simp only [calculateOptimalAmounts, if_neg (not_le.mpr horder), hparse,
      if_neg (not_le.mpr hv), if_pos hmis]
  · intro v horder hparse hv hlow hupp
    simp only [calculateOptimalAmounts, if_neg (not_le.mpr horder), hparse,
      if_neg (not_le.mpr hv), if_neg (not_not_intro hlow), if_pos hupp]

/-- C7 witness: three concrete runs of `calculateOptimalAmounts_preconditions`
(MEDIUM-fee pool, spacing 60): inverted ticks 100 ≥ 50 fail `InvalidRange`;
size input `0` on the valid range (60, 120) fails `InvalidInput`; misaligned
`lowerTick = 10` with size `1.0` fails `InvalidTickAlignment`. -/
theorem calculateOptimalAmounts_preconditions_witness :
  calculateOptimalAmounts
      (Pool.mk WETH USDC 3000 (getSqrtRatioAtTickRaw 351283) 0 351283)
      100 50 (r"1.0") = .error .InvalidRange ∧
  calculateOptimalAmounts
      (Pool.mk WETH USDC 3000 (getSqrtRatioAtTickRaw 351283) 0 351283)
      60 120 (r"0") = .error .InvalidInput ∧
  calculateOptimalAmounts
      (Pool.mk WETH USDC 3000 (getSqrtRatioAtTickRaw 351283) 0 351283)
      10 120 (r"1.0") = .error .InvalidTickAlignment :=
  ⟨(calculateOptimalAmounts_preconditions
      (Pool.mk WETH USDC 3000 (getSqrtRatioAtTickRaw 351283) 0 351283)
      100 50 (r"1.0")).1 (by decide),
   (calculateOptimalAmounts_preconditions
      (Pool.mk WETH USDC 3000 (getSqrtRatioAtTickRaw 351283) 0 351283)
      60 120 (r"0")).2.2.1 0 (by decide) (by decide) (by decide),
   (calculateOptimalAmounts_preconditions
      (Pool.mk WETH USDC 3000 (getSqrtRatioAtTickRaw 351283) 0 351283)
      10 120 (r"1.0")).2.2.2.1 (10 ^ 18) (by decide) (by decide) (by decide) (by decide)⟩

/-- Parameters of `adjustRange` (adjustRange.ts).  `slippageTolerance` is
optional (`undefined` is `none`). -/
structure AdjustRangeParams where
  newPriceLower : ℚ
  newPriceUpper : ℚ
  slippageTolerance : Option ℚ
deriving DecidableEq, Repr

/-- validation.ts `validateAdjustRangeParams`: falsy (0 here, or absent)
price bounds fail with `InvalidInput`; then `validatePriceRange`; then, only
when `slippageTolerance` is present and truthy (non-zero), the range check
`0 < slippageTolerance < 100` (`InvalidInput` otherwise).  Note the JS
truthiness test skips the range check entirely for a tolerance of 0. -/
def validateAdjustRangeParams (params : AdjustRangeParams) : Except Err Bool :=
  if params.newPriceLower = 0 ∨ params.newPriceUpper = 0 then .error .InvalidInput
  else
    match validatePriceRange params.newPriceLower params.newPriceUpper with
    | .error e => .error e
    | .ok _ =>
      match params.slippageTolerance with
      | some s =>
        if s ≠ 0 then
          if s ≤ 0 ∨ (100 : ℚ) ≤ s then .error .InvalidInput else .ok true
        else .ok true
      | none => .ok true

/-- External contract calls issued by the workflow scripts (the
`NonfungiblePositionManager` methods they invoke), recorded as a trace. -/
inductive ExtCall
  | positions (tokenId : ℕ)
  | decreaseLiquidity (tokenId : ℕ) (liquidity : ℤ) (amount0Min amount1Min : ℕ) (deadline : ℕ)
  | collect (tokenId : ℕ) (amount0Max amount1Max : ℕ)
  | mint (token0 token1 : String) (fee : ℕ) (tickLower tickUpper : ℤ)
      (amount0Desired amount1Desired : ℤ) (amount0Min amount1Min : ℕ) (deadline : ℕ)
deriving DecidableEq, Repr

/-- The position record the scripts read from
`positionManager.positions(tokenId)`.  `amount0`/`amount1` model the fields
`adjustRange` reads for its mint step (the real ABI tuple has no such
fields, so at runtime they are `undefined`; they are explicit here to keep
the trace well-typed). -/
structure PositionState where
  token0 : String
  token1 : String
  fee : ℕ
  tickLower : ℤ
  tickUpper : ℤ
  liquidity : ℕ
  tokensOwed0 : ℕ
  tokensOwed1 : ℕ
  amount0 : ℤ
  amount1 : ℤ
deriving DecidableEq, Repr

/-- Options of `withdrawLiquidity` (withdrawLiquidity.ts). -/
structure WithdrawOptions where
  percentageToWithdraw : ℤ
  collectFees : Bool
deriving DecidableEq, Repr

/-- withdrawLiquidity.ts `withdrawLiquidity` (lines 43-126), modelled as the
trace of external calls it issues plus its result; the externally read
position state is passed in as `position` (the response of the always-issued
`positions` read), and external calls are modelled as succeeding.  There is
NO validation of `percentageToWithdraw`: the script reads the position,
computes `liquidityToWithdraw = liquidity * percentage / 100` (BigInt
division), issues `decreaseLiquidity` (with zero minimums and a
`now + 600`-second deadline) only when that value is positive, issues
`collect` with `MaxUint128` bounds when `collectFees` is set, and returns
`true`. -/
def withdrawLiquidity (tokenId : ℕ) (position : PositionState)
    (options : WithdrawOptions) (now : ℕ) : List ExtCall × Except Err Bool :=
  let liquidityToWithdraw := jsDiv ((position.liquidity : ℤ) * options.percentageToWithdraw) 100
  let deadline := now + 600
  let calls1 : List ExtCall :=
    if liquidityToWithdraw > 0 then
      [.positions tokenId, .decreaseLiquidity tokenId liquidityToWithdraw 0 0 deadline]
    else [.positions tokenId]
  let calls2 : List ExtCall :=
    if options.collectFees then calls1 ++ [.collect tokenId MaxUint128 MaxUint128] else calls1
  (calls2, .ok true)

/-- adjustRange.ts `adjustRange` (second version, the one the claims cite),
modelled as the trace of external calls plus its result: validate the
params; read the position; convert both new price bounds to ticks (with
`priceToTick`'s default LOW fee tier; a conversion failure aborts after the
read); then decrease the position's ENTIRE `liquidity` with zero
`amount0Min`/`amount1Min`, collect everything with `MaxUint128` bounds, and
mint the new range (again with zero minimums). -/
def adjustRange (tokenId : ℕ) (baseToken quoteToken : Token)
    (params : AdjustRangeParams) (position : PositionState) (now : ℕ) :
    List ExtCall × Except Err Bool :=
  match validateAdjustRangeParams params with
  | .error e => ([], .error e)
  | .ok _ =>
    match priceToTick params.newPriceLower baseToken quoteToken with
    | .error e => ([.positions tokenId], .error e)
    | .ok newTickLower =>
      match priceToTick params.newPriceUpper baseToken quoteToken with
      | .error e => ([.positions tokenId], .error e)
      | .ok newTickUpper =>
        let deadline := now + 600
        ([.positions tokenId,
          .decreaseLiquidity tokenId (position.liquidity : ℤ) 0 0 deadline,
          .collect tokenId MaxUint128 MaxUint128,
          .mint position.token0 position.token1 position.fee newTickLower newTickUpper
            position.amount0 position.amount1 0 0 deadline],
         .ok true)

/-- C8 counterexample: `withdrawLiquidity` performs NO validation of
`percentageToWithdraw`.  For the out-of-range percentage 150 on a position
with liquidity 1000 it does not fail with `InvalidInput` (or at all): it
issues the position read, a `decreaseLiquidity` for 1500 — 150% of the
position's liquidity — and the collect, then returns `true`. -/
theorem withdrawLiquidity_no_percentage_validation_counterexample :
  (withdrawLiquidity 7 (⟨r"t0", r"t1", 3000, 350710, 351820, 1000, 0, 0, 5, 5⟩ : PositionState)
      ⟨150, true⟩ 0).2 = .ok true ∧
  (withdrawLiquidity 7 (⟨r"t0", r"t1", 3000, 350710, 351820, 1000, 0, 0, 5, 5⟩ : PositionState)
      ⟨150, true⟩ 0).1 =
    [.positions 7, .decreaseLiquidity 7 1500 0 0 600, .collect 7 MaxUint128 MaxUint128] ∧
  ((150 : ℤ) ≤ 0 ∨ 100 < (150 : ℤ)) := by decide

/-- C8 amended: `withdrawLiquidity` never raises `InvalidInput` for an
out-of-range `percentageToWithdraw`: for every percentage outside `(0, 100]`
it proceeds — the externally issued position read is always first in the
call trace — and returns `true` (the percentage is only used in the
`liquidity * percentage / 100` computation that decides whether a decrease
call is issued). -/
theorem withdrawLiquidity_out_of_range_percentage_proceeds :
  ∀ (tokenId : ℕ) (position : PositionState) (collectFees : Bool) (p : ℤ) (now : ℕ),
    p ≤ 0 ∨ 100 < p →
    (withdrawLiquidity tokenId position ⟨p, collectFees⟩ now).2 = .ok true ∧
    (∀ e : Err, (withdrawLiquidity tokenId position ⟨p, collectFees⟩ now).2 ≠ .error e) ∧
    (withdrawLiquidity tokenId position ⟨p, collectFees⟩ now).1.head? =
      some (.positions tokenId) := by
  intro tokenId position collectFees p now _
  refine ⟨rfl, fun e => by simp [withdrawLiquidity], ?_⟩
  simp only [withdrawLiquidity]
  split
  · split
    · rfl
    · rfl
  · split
    · rfl
    · rfl

/-- C8 witness: `withdrawLiquidity_out_of_range_percentage_proceeds` applied
at percentage 150 (liquidity 1000): the workflow returns `true` and the
position read is still issued. -/
theorem withdrawLiquidity_out_of_range_percentage_proceeds_witness :
  (withdrawLiquidity 7 (⟨r"t0", r"t1", 3000, 350710, 351820, 1000, 0, 0, 5, 5⟩ : PositionState)
      ⟨150, true⟩ 0).2 = .ok true ∧
  (∀ e : Err, (withdrawLiquidity 7
      (⟨r"t0", r"t1", 3000, 350710, 351820, 1000, 0, 0, 5, 5⟩ : PositionState)
      ⟨150, true⟩ 0).2 ≠ .error e) ∧
  (withdrawLiquidity 7 (⟨r"t0", r"t1", 3000, 350710, 351820, 1000, 0, 0, 5, 5⟩ : PositionState)
      ⟨150, true⟩ 0).1.head? = some (.positions 7) :=
  withdrawLiquidity_out_of_range_percentage_proceeds 7
    (⟨r"t0", r"t1", 3000, 350710, 351820, 1000, 0, 0, 5, 5⟩ : PositionState)
    true 150 0 (Or.inr (by decide))

/-- C10: in `withdrawLiquidity` the liquidity to remove is
`(liquidity * percentageToWithdraw) / 100` in `BigInt` arithmetic, which for
non-negative percentages is the floor (`Int.ediv`) of the product; whenever
the computed value is zero (zero-liquidity position, or a product below
100), no `decreaseLiquidity` call appears in the trace, yet the workflow
still issues the `collect` call with `MaxUint128` bounds when `collectFees`
is set, and returns `true` rather than failing. -/
theorem withdrawLiquidity_zero_computed_liquidity :
  ∀ (tokenId : ℕ) (position : PositionState) (p : ℤ) (collectFees : Bool) (now : ℕ),
    (0 ≤ p → jsDiv ((position.liquidity : ℤ) * p) 100 = ((position.liquidity : ℤ) * p) / 100) ∧
    (jsDiv ((position.liquidity : ℤ) * p) 100 = 0 →
      (withdrawLiquidity tokenId position ⟨p, collectFees⟩ now).2 = .ok true ∧
      (∀ (tid : ℕ) (l : ℤ) (m0 m1 d : ℕ),
        ExtCall.decreaseLiquidity tid l m0 m1 d ∉
          (withdrawLiquidity tokenId position ⟨p, collectFees⟩ now).1) ∧
      (collectFees = true →
        ExtCall.collect tokenId MaxUint128 MaxUint128 ∈
          (withdrawLiquidity tokenId position ⟨p, collectFees⟩ now).1)) := by
  intro tokenId position p collectFees now
  constructor
  · intro hp
    exact Int.tdiv_eq_ediv (mul_nonneg (by positivity) hp) (by norm_num)
  · intro hz
    refine ⟨rfl, ?_, ?_⟩
    · intro tid l m0 m1 d
      simp only [withdrawLiquidity, hz]
      cases collectFees <;> simp
    · intro hcf
      subst hcf
      simp only [withdrawLiquidity, hz]
      simp

/-- C10 witness: `withdrawLiquidity_zero_computed_liquidity` at liquidity 5
and percentage 10 (the product 50 floors to 0): no decrease call, collect
still issued, result `true`. -/
theorem withdrawLiquidity_zero_computed_liquidity_witness :
  (withdrawLiquidity 7 (⟨r"t0", r"t1", 3000, 350710, 351820, 5, 0, 0, 5, 5⟩ : PositionState)
      ⟨10, true⟩ 0).2 = .ok true ∧
  (∀ (tid : ℕ) (l : ℤ) (m0 m1 d : ℕ),
    ExtCall.decreaseLiquidity tid l m0 m1 d ∉
      (withdrawLiquidity 7 (⟨r"t0", r"t1", 3000, 350710, 351820, 5, 0, 0, 5, 5⟩ : PositionState)
        ⟨10, true⟩ 0).1) ∧
  (true = true →
    ExtCall.collect 7 MaxUint128 MaxUint128 ∈
      (withdrawLiquidity 7 (⟨r"t0", r"t1", 3000, 350710, 351820, 5, 0, 0, 5, 5⟩ : PositionState)
        ⟨10, true⟩ 0).1) :=
  (withdrawLiquidity_zero_computed_liquidity 7
    (⟨r"t0", r"t1", 3000, 350710, 351820, 5, 0, 0, 5, 5⟩ : PositionState)
    10 true 0).2 (by decide)

/-- C9: every `decreaseLiquidity` call issued by the Rebalance workflow
`adjustRange` removes 100% of the position's existing liquidity and carries
zero minimum-amount bounds (`amount0Min = amount1Min = 0`), for every
invocation. -/
theorem adjustRange_decrease_full_liquidity_zero_mins :
  ∀ (tokenId : ℕ) (baseToken quoteToken : Token) (params : AdjustRangeParams)
    (position : PositionState) (now : ℕ) (tid : ℕ) (l : ℤ) (m0 m1 d : ℕ),
    ExtCall.decreaseLiquidity tid l m0 m1 d ∈
      (adjustRange tokenId baseToken quoteToken params position now).1 →
    tid = tokenId ∧ l = (position.liquidity : ℤ) ∧ m0 = 0 ∧ m1 = 0 := by
  intro tokenId baseToken quoteToken params position now tid l m0 m1 d hmem
  unfold adjustRange at hmem
  cases hv : validateAdjustRangeParams params with
  | error e => rw [hv] at hmem; simp at hmem
  | ok u =>
    rw [hv] at hmem
    cases hl : priceToTick params.newPriceLower baseToken quoteToken with
    | error e => rw [hl] at hmem; simp at hmem
    | ok newTickLower =>
      rw [hl] at hmem
      cases hu : priceToTick params.newPriceUpper baseToken quoteToken with
      | error e => rw [hu] at hmem; simp at hmem
      | ok newTickUpper =>
        rw [hu] at hmem
        simp only [List.mem_cons, List.not_mem_nil, or_false] at hmem
        rcases hmem with h | h | h | h
        · exact absurd h (by simp)
        · simp only [ExtCall.decreaseLiquidity.injEq] at h
          exact ⟨h.1, h.2.1, h.2.2.1, h.2.2.2.1⟩
        · exact absurd h (by simp)
        · exact absurd h (by simp)

/-- C9 witness: a concrete Rebalance run (price range 1700-1900, WETH/USDC,
position liquidity 1000) whose trace contains
`decreaseLiquidity 7 1000 0 0 600` — all of the position's liquidity, zero
minimums. -/
theorem adjustRange_decrease_full_liquidity_zero_mins_witness :
  (7 : ℕ) = 7 ∧
  (1000 : ℤ) =
    (((⟨r"t0", r"t1", 3000, 350710, 351820, 1000, 0, 0, 5, 5⟩ : PositionState)).liquidity : ℤ) ∧
  (0 : ℕ) = 0 ∧ (0 : ℕ) = 0 :=
  adjustRange_decrease_full_liquidity_zero_mins 7 WETH USDC
    ⟨mkRat 1700 1, mkRat 1900 1, none⟩
    (⟨r"t0", r"t1", 3000, 350710, 351820, 1000, 0, 0, 5, 5⟩ : PositionState)
    0 7 1000 0 0 600 (by decide)

end Univ3






